import Mathlib

/-
Verification of pkg/hoist/hoist_launchable.go (p2 hoist launchable lifecycle).

Go strings are modelled as lists of characters (`GoStr`); the repository runs
on unix, so the path separator is always '/'.  The functions goBase, goClean,
goDir, goJoin, goRel below embed the Go standard library path/filepath
functions (unix specialization, empty volume names) that the repository calls;
goRel is expressed over path elements, which is equivalent to the byte-index
walk of the Go source on cleaned paths.
-/

namespace P2Hoist

abbrev GoStr := List Char

def s2l (s : String) : GoStr := s.toList

deriving instance DecidableEq for Except

/-- Embeds filepath.Base step 1: strip trailing path separators. -/
def dropTrailingSep (p : GoStr) : GoStr :=
  (p.reverse.dropWhile (fun c => c = '/')).reverse

/-- Embeds filepath.Base step 2: keep everything after the last separator. -/
def afterLastSep (p : GoStr) : GoStr :=
  (p.reverse.takeWhile (fun c => c ≠ '/')).reverse

/-- Embeds filepath.Base (unix): empty path gives ".", all-separator path
gives "/", otherwise the last element after stripping trailing separators. -/
def goBase (path : GoStr) : GoStr :=
  if path = [] then ['.']
  else
    let p := dropTrailingSep path
    let b := afterLastSep p
    if b = [] then ['/'] else b

/-- Embeds the backtracking index search in filepath.Clean for a ".." element:
starting from index w, step left while the index exceeds dotdot and the
character at the index is not a separator. -/
def btIdx (out : GoStr) (dotdot : Nat) : Nat → Nat
  | 0 => 0
  | w + 1 =>
    if dotdot < w + 1 ∧ out.getD (w + 1) ' ' ≠ '/' then btIdx out dotdot w
    else w + 1

/-- Embeds the ".." backtrack of filepath.Clean: decrement once, walk back to
the previous separator (or dotdot), keep the prefix. -/
def backtrack (out : GoStr) (dotdot : Nat) : GoStr :=
  out.take (btIdx out dotdot (out.length - 1))

/-- Embeds the element loop of filepath.Clean (unix).  fuel bounds the
recursion; each step consumes at least one input character, so fuel equal to
the input length suffices. -/
def cleanCore (rooted : Bool) : Nat → GoStr → Nat → GoStr → GoStr
  | 0, _, _, out => out
  | fuel + 1, input, dotdot, out =>
    match input with
    | [] => out
    | c :: rest =>
      if c = '/' then
        cleanCore rooted fuel rest dotdot out
      else if c = '.' ∧ (rest = [] ∨ rest.head? = some '/') then
        cleanCore rooted fuel rest dotdot out
      else if c = '.' ∧ rest.head? = some '.' ∧
              (rest.length = 1 ∨ (rest.drop 1).head? = some '/') then
        let rest2 := rest.drop 1
        if dotdot < out.length then
          cleanCore rooted fuel rest2 dotdot (backtrack out dotdot)
        else if rooted = false then
          let out1 := if 0 < out.length then out ++ ['/'] else out
          let out2 := out1 ++ ['.', '.']
          cleanCore rooted fuel rest2 out2.length out2
        else
          cleanCore rooted fuel rest2 dotdot out
      else
        let out1 :=
          if (rooted = true ∧ out.length ≠ 1) ∨ (rooted = false ∧ out.length ≠ 0)
          then out ++ ['/'] else out
        cleanCore rooted fuel (rest.dropWhile (fun x => x ≠ '/'))
          dotdot (out1 ++ c :: rest.takeWhile (fun x => x ≠ '/'))

/-- Embeds filepath.Clean (unix, empty volume name). -/
def goClean (path : GoStr) : GoStr :=
  if path = [] then ['.']
  else if path.head? = some '/' then
    let res := cleanCore true path.length (path.drop 1) 1 ['/']
    if res = [] then ['.'] else res
  else
    let res := cleanCore false path.length path 0 []
    if res = [] then ['.'] else res

/-- Splits a string on the path separator (no separator collapsing). -/
def splitSlash : GoStr → List GoStr
  | [] => [[]]
  | c :: rest =>
    let r := splitSlash rest
    if c = '/' then [] :: r
    else
      match r with
      | [] => [[c]]
      | s :: ss => (c :: s) :: ss

/-- Joins elements with the path separator (inverse of splitSlash). -/
def joinSlash : List GoStr → GoStr
  | [] => []
  | [e] => e
  | e :: rest => e ++ '/' :: joinSlash rest

/-- Path elements of a cleaned path: the root slash is dropped (the Go walk in
filepath.Rel matches the empty first element of two rooted paths trivially),
and the empty path has no elements. -/
def pathElems (p : GoStr) : List GoStr :=
  let q := if p.head? = some '/' then p.drop 1 else p
  if q = [] then [] else splitSlash q

/-- Embeds the common-prefix walk of filepath.Rel: drop the longest common
prefix of the two element lists. -/
def relWalk : List GoStr → List GoStr → List GoStr × List GoStr
  | b :: bs, t :: ts => if b = t then relWalk bs ts else (b :: bs, t :: ts)
  | bs, ts => (bs, ts)

/-- Embeds filepath.Rel (unix, empty volume names): clean both paths, answer
"." on equality, reject mixed rootedness and a leading ".." base remainder,
otherwise climb with ".." once per remaining base element and descend along
the remaining target elements.  The error text is not inspected anywhere. -/
def goRel (basepath targpath : GoStr) : Except GoStr GoStr :=
  let base0 := goClean basepath
  let targ := goClean targpath
  if targ = base0 then .ok ['.']
  else
    let base := if base0 = ['.'] then [] else base0
    if (base.head? = some '/') ≠ (targ.head? = some '/') then
      .error (s2l "Rel: cannot make target relative to base")
    else
      let walked := relWalk (pathElems base) (pathElems targ)
      if walked.1.head? = some (s2l "..") then
        .error (s2l "Rel: cannot make target relative to base")
      else if walked.1 = [] then .ok (joinSlash walked.2)
      else .ok (joinSlash (walked.1.map (fun _ => s2l "..") ++ walked.2))

/-- Embeds filepath.Dir (unix): everything up to and including the last
separator, cleaned. -/
def goDir (path : GoStr) : GoStr :=
  goClean ((path.reverse.dropWhile (fun c => c ≠ '/')).reverse)

/-- Embeds filepath.Join: skip leading empty elements, join the rest with the
separator, clean. -/
def goJoin (elems : List GoStr) : GoStr :=
  match elems.dropWhile (fun e => e.isEmpty) with
  | [] => []
  | es => goClean (joinSlash es)

/-- Models a Go error value.  os.IsNotExist holds exactly for notExistErr;
every message produced by util.Errorf is otherErr with the formatted text. -/
inductive GoErr
  | notExistErr
  | otherErr (msg : GoStr)
deriving DecidableEq, Repr

/-- Embeds os.IsNotExist on the modelled error values. -/
def GoErr.isNotExist : GoErr → Bool
  | .notExistErr => true
  | .otherErr _ => false

/-- Error text, as used by the %s verbs of util.Errorf. -/
def GoErr.msg : GoErr → GoStr
  | .notExistErr => s2l "file does not exist"
  | .otherErr m => m

/-- Embeds the Launchable struct (hoist_launchable.go lines 25-35).  The
FetchToFile callback and the cgroup configuration are modelled by oracles at
the call sites; of cgroups.Config only the name (used in the Launch error
message) is kept. -/
structure Launchable where
  Location : GoStr
  Id : GoStr
  RunAs : GoStr
  ConfigDir : GoStr
  RootDir : GoStr
  Chpst : GoStr
  Cgexec : GoStr
  CgroupName : GoStr
deriving DecidableEq, Repr

def tarGzSuffix : GoStr := s2l ".tar.gz"

/-- Embeds Version (lines 256-259): the base name of Location with the last
seven bytes cut off.  The Go slice expression fileName with upper bound
len(fileName)-len(".tar.gz") panics when the base name is shorter than the
suffix; the panic is modelled as none. -/
def Launchable.Version (hl : Launchable) : Option GoStr :=
  let fileName := goBase hl.Location
  if fileName.length < tarGzSuffix.length then none
  else some (fileName.take (fileName.length - tarGzSuffix.length))

/-- Embeds InstallDir (lines 319-322); none propagates a Version panic. -/
def Launchable.InstallDir (hl : Launchable) : Option GoStr :=
  (hl.Version).map (fun v => goJoin [hl.RootDir, s2l "installs", v])

/-- Filesystem node kinds the claims distinguish.  hardlinkNode is never
produced by the extraction code; it exists so that "a symlink, not a
hardlink" is expressible. -/
inductive Node
  | fileNode
  | dirNode
  | symlinkNode (target : GoStr)
  | hardlinkNode (target : GoStr)
deriving DecidableEq, Repr

/-- A flat filesystem model: an association list from paths to nodes, later
bindings shadowing earlier ones.  Ownership, permissions and file contents
are not modelled; no claim depends on them. -/
abbrev FS := List (GoStr × Node)

def FS.find : FS → GoStr → Option Node
  | [], _ => none
  | (q, n) :: rest, p => if q = p then some n else FS.find rest p

/-- Path existence, the success of os.Stat in this model. -/
def FS.pathExists (fs : FS) (p : GoStr) : Bool := (fs.find p).isSome

def FS.set (fs : FS) (p : GoStr) (n : Node) : FS := (p, n) :: fs

/-- Embeds Installed (lines 216-220): os.Stat on the install directory
succeeds. -/
def Launchable.Installed (hl : Launchable) (fs : FS) : Option Bool :=
  (hl.InstallDir).map (fun d => fs.pathExists d)

/- ---------------------------------------------------------------- tar -/

def tarTypeReg : Char := '0'
def tarTypeRegA : Char := Char.ofNat 0
def tarTypeLink : Char := '1'
def tarTypeSymlink : Char := '2'
def tarTypeDir : Char := '5'

/-- The fields of a tar header the extraction switch reads.  Modes and file
contents are not modelled. -/
structure TarHeader where
  typeflag : Char
  name : GoStr
  linkname : GoStr
deriving DecidableEq, Repr

/-- The entry type flags the switch in extractTarGz (lines 356-404) handles;
every other flag falls into the default arm and is an error. -/
def recognizedFlag (c : Char) : Prop :=
  c = tarTypeSymlink ∨ c = tarTypeLink ∨ c = tarTypeDir ∨
    c = tarTypeReg ∨ c = tarTypeRegA

instance (c : Char) : Decidable (recognizedFlag c) := by
  unfold recognizedFlag; infer_instance

/-- Embeds one iteration of the entry switch in extractTarGz (lines 356-404).
os.Symlink fails when the destination path already exists; os.Mkdir on an
existing path is tolerated by the code (os.IsExist check); a regular file is
created or truncated.  The chown calls and the content copy, whose failure
modes no claim depends on, are modelled as succeeding; parent-directory
checks are elided by the flat filesystem model. -/
def extractStep (dest : GoStr) (fs : FS) (hdr : TarHeader) : FS × Except GoErr Unit :=
  let fpath := goJoin [dest, hdr.name]
  if hdr.typeflag = tarTypeSymlink then
    if fs.pathExists fpath then
      (fs, .error (.otherErr (s2l "Unable to create destination symlink")))
    else (fs.set fpath (.symlinkNode hdr.linkname), .ok ())
  else if hdr.typeflag = tarTypeLink then
    match goRel (goDir hdr.name) hdr.linkname with
    | .error e => (fs, .error (.otherErr e))
    | .ok linkTarget =>
      if fs.pathExists fpath then
        (fs, .error (.otherErr (s2l "Unable to create destination symlink")))
      else (fs.set fpath (.symlinkNode linkTarget), .ok ())
  else if hdr.typeflag = tarTypeDir then
    if fs.pathExists fpath then (fs, .ok ())
    else (fs.set fpath .dirNode, .ok ())
  else if hdr.typeflag = tarTypeReg ∨ hdr.typeflag = tarTypeRegA then
    (fs.set fpath .fileNode, .ok ())
  else (fs, .error (.otherErr (s2l "Unhandled type flag " ++ [hdr.typeflag])))

/-- Embeds the header loop of extractTarGz (lines 346-405): process headers
in order, abort on the first failing entry; a tar read error after the listed
headers (readErr) is surfaced, a clean EOF ends the loop. -/
def extractLoop (dest : GoStr) (fs : FS) :
    List TarHeader → Option GoErr → FS × Except GoErr Unit
  | [], none => (fs, .ok ())
  | [], some e => (fs, .error (.otherErr (s2l "Unable to read archive: " ++ e.msg)))
  | h :: hs, re =>
    match extractStep dest fs h with
    | (fs1, .ok _) => extractLoop dest fs1 hs re
    | (fs1, .error e) => (fs1, .error e)

/-- Oracle for the external effects of extractTarGz: gzip reader creation,
user.IDs lookup, creation and chown of the destination root, and the decoded
archive (its headers plus an optional trailing tar read error). -/
structure ExtractOracle where
  gzipRes : Except GoErr Unit
  idsRes : Except GoErr (Nat × Nat)
  mkdirRes : Except GoErr Unit
  chownRes : Except GoErr Unit
  headers : List TarHeader
  readErr : Option GoErr

/-- Embeds extractTarGz (lines 324-406): gzip reader, uid/gid lookup,
MkdirChownAll of the destination root (which makes dest exist), chown, then
the entry loop. -/
def Launchable.extractTarGz (_hl : Launchable) (o : ExtractOracle) (fs : FS)
    (dest : GoStr) : FS × Except GoErr Unit :=
  match o.gzipRes with
  | .error e => (fs, .error (.otherErr (s2l "Unable to create gzip reader: " ++ e.msg)))
  | .ok _ =>
  match o.idsRes with
  | .error e => (fs, .error e)
  | .ok _ =>
  match o.mkdirRes with
  | .error e => (fs, .error (.otherErr (s2l "Unable to create root directory: " ++ e.msg)))
  | .ok _ =>
    let fs1 := fs.set dest .dirNode
    match o.chownRes with
    | .error e => (fs1, .error (.otherErr (s2l "Unable to chown root directory: " ++ e.msg)))
    | .ok _ => extractLoop dest fs1 o.headers o.readErr

/- ------------------------------------------------------------- install -/

/-- The externally visible operations Install performs besides mutating the
modelled filesystem; temporary files live outside the launchable tree. -/
inductive InstallEffect
  | tempDirCreate (d : GoStr)
  | fetchTo (src dst : GoStr)
  | extractTo (dest : GoStr)
  | removeAll (d : GoStr)
deriving DecidableEq, Repr

/-- Oracle for Install: ioutil.TempDir, the injected FetchToFile callback,
os.Open of the fetched file, and the extraction oracle. -/
structure InstallOracle where
  tempDirRes : Except GoErr GoStr
  fetchRes : Except GoErr Unit
  openRes : Except GoErr Unit
  ex : ExtractOracle

/-- Embeds Install (lines 222-252).  Already installed: immediate success,
nothing touched.  Otherwise: temp dir (whose deferred RemoveAll is registered
before the error check, hence the removeAll of the empty name on TempDir
failure), fetch, open, extract.  fd.Close is not modelled. -/
def Launchable.Install (hl : Launchable) (fs : FS) (o : InstallOracle) :
    Option (FS × List InstallEffect × Option GoErr) := do
  let installed ← hl.Installed fs
  if installed then
    return (fs, [], none)
  else
    let v ← hl.Version
    let dest ← hl.InstallDir
    match o.tempDirRes with
    | .error e =>
      return (fs, [.removeAll []],
        some (.otherErr (s2l "Could not create temporary directory to install " ++
          v ++ s2l ": " ++ e.msg)))
    | .ok outDir =>
      let outPath := goJoin [outDir, v]
      match o.fetchRes with
      | .error e =>
        return (fs, [.tempDirCreate outDir, .fetchTo hl.Location outPath,
          .removeAll outDir], some e)
      | .ok _ =>
      match o.openRes with
      | .error e =>
        return (fs, [.tempDirCreate outDir, .fetchTo hl.Location outPath,
          .removeAll outDir], some e)
      | .ok _ =>
        match hl.extractTarGz o.ex fs dest with
        | (fs1, .error e) =>
          return (fs1, [.tempDirCreate outDir, .fetchTo hl.Location outPath,
            .extractTo dest, .removeAll outDir], some e)
        | (fs1, .ok _) =>
          return (fs1, [.tempDirCreate outDir, .fetchTo hl.Location outPath,
            .extractTo dest, .removeAll outDir], none)

/- --------------------------------------------------------------- hooks -/

/-- Result of os.Stat on the hook script path. -/
inductive StatResult
  | found
  | statErr (e : GoErr)
deriving DecidableEq, Repr

/-- Oracle for the hook runner: os.Stat of the script path and cmd.Run of the
chpst invocation, the latter returning the combined stdout/stderr buffer
together with an optional error. -/
structure HookWorld where
  stat : GoStr → StatResult
  run : GoStr → GoStr × Option GoErr

/-- Embeds invokeBinScript (lines 113-130): stat the script under
installDir/bin, return the bare stat error with empty output on failure,
otherwise run it via chpst and return the captured combined output together
with any run error. -/
def Launchable.invokeBinScript (hl : Launchable) (w : HookWorld) (script : GoStr) :
    Option (GoStr × Option GoErr) := do
  let instDir ← hl.InstallDir
  let cmdPath := goJoin [instDir, s2l "bin", script]
  match w.stat cmdPath with
  | .statErr e => return ([], some e)
  | .found => return (w.run cmdPath)

/-- Embeds PostActivate (lines 80-89): invoke bin/post-activate, swallow
exactly the errors satisfying os.IsNotExist. -/
def Launchable.PostActivate (hl : Launchable) (w : HookWorld) :
    Option (GoStr × Option GoErr) := do
  let r ← hl.invokeBinScript w (s2l "post-activate")
  match r.2 with
  | some e => if e.isNotExist then return (r.1, none) else return (r.1, some e)
  | none => return (r.1, none)

/-- Embeds Disable (lines 91-100), same swallowing as PostActivate. -/
def Launchable.Disable (hl : Launchable) (w : HookWorld) :
    Option (GoStr × Option GoErr) := do
  let r ← hl.invokeBinScript w (s2l "disable")
  match r.2 with
  | some e => if e.isNotExist then return (r.1, none) else return (r.1, some e)
  | none => return (r.1, none)

/-- Embeds Enable (lines 102-111), same swallowing as PostActivate. -/
def Launchable.Enable (hl : Launchable) (w : HookWorld) :
    Option (GoStr × Option GoErr) := do
  let r ← hl.invokeBinScript w (s2l "enable")
  match r.2 with
  | some e => if e.isNotExist then return (r.1, none) else return (r.1, some e)
  | none => return (r.1, none)

/- ----------------------------------------------------------- discovery -/

/-- Embeds the Executable struct built by Executables (lines 199-211); the
runit.Service value is flattened into its Path and Name fields. -/
structure Executable where
  ServicePath : GoStr
  ServiceName : GoStr
  ExecPath : GoStr
  Chpst : GoStr
  Cgexec : GoStr
  CgroupName : GoStr
  Nolimit : GoStr
  RunAs : GoStr
  ConfigDir : GoStr
deriving DecidableEq, Repr

/-- One Executable as assembled in the loop of Executables (lines 196-212):
service name is id__entry, service path lives under the runit root, the exec
path under the service directory. -/
def mkExecutable (hl : Launchable) (runitRoot serviceDir nm : GoStr) : Executable :=
  let serviceName := hl.Id ++ s2l "__" ++ nm
  { ServicePath := goJoin [runitRoot, serviceName]
    ServiceName := serviceName
    ExecPath := goJoin [serviceDir, nm]
    Chpst := hl.Chpst
    Cgexec := hl.Cgexec
    CgroupName := hl.CgroupName
    Nolimit := s2l "/usr/bin/nolimit"
    RunAs := hl.RunAs
    ConfigDir := hl.ConfigDir }

/-- Oracle for ioutil.ReadDir on the bin/launch directory. -/
structure DiscoverWorld where
  readDir : GoStr → Except GoErr (List GoStr)

/-- Embeds Executables (lines 172-214): fail with the "not installed" error
(and an empty slice) when the install directory does not exist; stat
bin/launch; if it is a directory every child read from it is a service,
otherwise the single file is; build one Executable per service. -/
def Launchable.Executables (hl : Launchable) (fs : FS) (dw : DiscoverWorld)
    (runitRoot : GoStr) : Option (List Executable × Option GoErr) := do
  let installed ← hl.Installed fs
  let instDir ← hl.InstallDir
  if installed then
    let binLaunchPath := goJoin [instDir, s2l "bin", s2l "launch"]
    match fs.find binLaunchPath with
    | none => return ([], some (.otherErr (s2l "stat bin/launch failed")))
    | some node =>
      if node = Node.dirNode then
        match dw.readDir binLaunchPath with
        | .error e => return ([], some e)
        | .ok names =>
          return (names.map (fun nm => mkExecutable hl runitRoot binLaunchPath nm), none)
      else
        return ([mkExecutable hl runitRoot (goDir binLaunchPath) (s2l "launch")], none)
  else
    return ([], some (.otherErr (hl.Id ++ s2l " is not installed")))

/- ----------------------------------------------------- start and launch -/

/-- Result of one sv.Restart call: nil, the distinguished
runit.SuperviseOkMissing value, or any other error. -/
inductive SvResult
  | ok
  | superviseOkMissing
  | err (e : GoErr)
deriving DecidableEq, Repr

/-- Embeds the restart loop of Start (lines 162-167) and records which
executables received a restart request.  The Go condition is
err != runit.SuperviseOkMissing, so a nil error from sv.Restart also takes
the return branch: only superviseOkMissing continues the loop. -/
def startLoop (restart : Executable → SvResult) :
    List Executable → List Executable × Option GoErr
  | [] => ([], none)
  | ex :: rest =>
    match restart ex with
    | .superviseOkMissing =>
      let r := startLoop restart rest
      (ex :: r.1, r.2)
    | .ok => ([ex], none)
    | .err e => ([ex], some e)

/-- Embeds Start (lines 155-170): discover executables, propagate a discovery
error, otherwise run the restart loop.  The first component lists the
executables that actually received a restart request. -/
def Launchable.Start (hl : Launchable) (fs : FS) (dw : DiscoverWorld)
    (runitRoot : GoStr) (restart : Executable → SvResult) :
    Option (List Executable × Option GoErr) := do
  let r ← hl.Executables fs dw runitRoot
  match r.2 with
  | some e => return ([], some e)
  | none => return (startLoop restart r.1)

/-- The externally visible steps of Launch, in execution order. -/
inductive LaunchEvent
  | cgroupWrite
  | restartReq (ex : Executable)
  | enableHook
deriving DecidableEq, Repr

/-- Embeds Launch (lines 63-78): write the cgroup configuration (wrapping a
failure and aborting), then Start (wrapping a failure), then Enable, whose
error is returned unwrapped; the trace records the steps performed. -/
def Launchable.Launch (hl : Launchable) (fs : FS) (dw : DiscoverWorld)
    (runitRoot : GoStr) (cg : Except GoErr Unit) (restart : Executable → SvResult)
    (hw : HookWorld) : Option (List LaunchEvent × Option GoErr) := do
  match cg with
  | .error e =>
    return ([.cgroupWrite],
      some (.otherErr (s2l "Could not configure cgroup " ++ hl.CgroupName ++
        s2l ": " ++ e.msg)))
  | .ok _ =>
    let r ← hl.Start fs dw runitRoot restart
    let evs := LaunchEvent.cgroupWrite :: r.1.map LaunchEvent.restartReq
    match r.2 with
    | some e =>
      return (evs, some (.otherErr (s2l "Could not launch " ++ hl.Id ++
        s2l ": " ++ e.msg)))
    | none =>
      let er ← hl.Enable hw
      return (evs ++ [LaunchEvent.enableHook], er.2)

/- --------------------------------------------------------- pointer flip -/

/-- The filesystem operations flipSymlink issues, with the paths they touch. -/
inductive FsEvent
  | tempDirCreate (d : GoStr)
  | symlinkCreate (path target : GoStr)
  | lchownOp (path : GoStr)
  | renameOp (src dst : GoStr)
  | removeAllOp (d : GoStr)
deriving DecidableEq, Repr

/-- Whether an operation touches the path p. -/
def touches (p : GoStr) : FsEvent → Bool
  | .tempDirCreate d => decide (d = p)
  | .symlinkCreate q _ => decide (q = p)
  | .lchownOp q => decide (q = p)
  | .renameOp s t => decide (s = p) || decide (t = p)
  | .removeAllOp d => decide (d = p)

/-- Oracle for flipSymlink: ioutil.TempDir in RootDir, os.Symlink, user.IDs,
os.Lchown, os.Rename. -/
structure FlipWorld where
  tempDirRes : Except GoErr GoStr
  symlinkRes : Except GoErr Unit
  idsRes : Except GoErr (Nat × Nat)
  lchownRes : Except GoErr Unit
  renameRes : Except GoErr Unit

/-- Embeds flipSymlink (lines 295-317): temp dir inside RootDir (the deferred
RemoveAll is registered after the error check, so nothing is cleaned up when
TempDir itself fails), symlink to the install dir inside it, uid/gid lookup,
lchown of the temp link, rename onto the final path; the deferred RemoveAll
of the temp dir runs on every exit after its creation. -/
def Launchable.flipSymlink (hl : Launchable) (w : FlipWorld) (newLinkPath : GoStr) :
    Option (List FsEvent × Option GoErr) := do
  let instDir ← hl.InstallDir
  match w.tempDirRes with
  | .error e =>
    return ([], some (.otherErr (s2l "Could not create temporary directory for symlink: " ++ e.msg)))
  | .ok dir =>
    let tempLinkPath := goJoin [dir, hl.Id]
    match w.symlinkRes with
    | .error e =>
      return ([.tempDirCreate dir, .symlinkCreate tempLinkPath instDir,
        .removeAllOp dir],
        some (.otherErr (s2l "Could not create symlink for hoist launchable " ++
          hl.Id ++ s2l ": " ++ e.msg)))
    | .ok _ =>
    match w.idsRes with
    | .error e =>
      return ([.tempDirCreate dir, .symlinkCreate tempLinkPath instDir,
        .removeAllOp dir],
        some (.otherErr (s2l "Could not retrieve UID/GID for hoist launchable " ++
          hl.Id ++ s2l ": " ++ e.msg)))
    | .ok _ =>
    match w.lchownRes with
    | .error e =>
      return ([.tempDirCreate dir, .symlinkCreate tempLinkPath instDir,
        .lchownOp tempLinkPath, .removeAllOp dir],
        some (.otherErr (s2l "Could not lchown symlink for hoist launchable " ++
          hl.Id ++ s2l ": " ++ e.msg)))
    | .ok _ =>
      return ([.tempDirCreate dir, .symlinkCreate tempLinkPath instDir,
        .lchownOp tempLinkPath, .renameOp tempLinkPath newLinkPath,
        .removeAllOp dir],
        match w.renameRes with | .error e => some e | .ok _ => none)

/-- Embeds CurrentDir (lines 279-281). -/
def Launchable.CurrentDir (hl : Launchable) : GoStr :=
  goJoin [hl.RootDir, s2l "current"]

/-- Embeds LastDir (lines 287-289). -/
def Launchable.LastDir (hl : Launchable) : GoStr :=
  goJoin [hl.RootDir, s2l "last"]

/-- Embeds MakeCurrent (lines 283-285). -/
def Launchable.MakeCurrent (hl : Launchable) (w : FlipWorld) :
    Option (List FsEvent × Option GoErr) :=
  hl.flipSymlink w hl.CurrentDir

/-- Embeds MakeLast (lines 291-293). -/
def Launchable.MakeLast (hl : Launchable) (w : FlipWorld) :
    Option (List FsEvent × Option GoErr) :=
  hl.flipSymlink w hl.LastDir

/-- Whether an Except value is a success. -/
def isOkE {α β : Type} : Except α β → Bool
  | .ok _ => true
  | .error _ => false

/- ------------------------------------------------- concrete fixtures -/

/-- A concrete launchable used by witnesses and concrete evaluations. -/
def wHl : Launchable :=
  { Location := s2l "/repo/myapp_1.0.tar.gz", Id := s2l "app",
    RunAs := s2l "appuser", ConfigDir := s2l "/etc/app",
    RootDir := s2l "/opt/app", Chpst := s2l "/usr/bin/chpst",
    Cgexec := s2l "/usr/bin/cgexec", CgroupName := s2l "cg" }

def wInstallDir : GoStr := s2l "/opt/app/installs/myapp_1.0"

def wBinLaunch : GoStr := goJoin [wInstallDir, s2l "bin", s2l "launch"]

/-- A filesystem where wHl is installed and bin/launch is a directory. -/
def wFs : FS := [(wInstallDir, Node.dirNode), (wBinLaunch, Node.dirNode)]

/-- bin/launch holds two service entries, web and worker. -/
def wDw : DiscoverWorld := { readDir := fun _ => .ok [s2l "web", s2l "worker"] }

def wRR : GoStr := s2l "/var/service"

def wExWeb : Executable := mkExecutable wHl wRR wBinLaunch (s2l "web")

def wExWorker : Executable := mkExecutable wHl wRR wBinLaunch (s2l "worker")

/-- A hook world where every hook script is absent. -/
def wHw : HookWorld :=
  { stat := fun _ => .statErr .notExistErr, run := fun _ => ([], none) }

/-- A flip world where every step succeeds; the temp directory is the one
ioutil.TempDir would create inside RootDir from the Id pattern. -/
def wFlip : FlipWorld :=
  { tempDirRes := .ok (s2l "/opt/app/app847103"), symlinkRes := .ok (),
    idsRes := .ok (1000, 1000), lchownRes := .ok (), renameRes := .ok () }

/-- The trace of a fully successful flipSymlink run of wHl under wFlip. -/
def wFlipTrace : List FsEvent :=
  [FsEvent.tempDirCreate (s2l "/opt/app/app847103"),
   FsEvent.symlinkCreate (s2l "/opt/app/app847103/app") (s2l "/opt/app/installs/myapp_1.0"),
   FsEvent.lchownOp (s2l "/opt/app/app847103/app"),
   FsEvent.renameOp (s2l "/opt/app/app847103/app") (s2l "/opt/app/current"),
   FsEvent.removeAllOp (s2l "/opt/app/app847103")]

/- ------------------------------------------------------ helper lemmas -/

theorem takeWhile_append_all {p : Char → Bool} (l t : GoStr)
    (h : ∀ c ∈ l, p c = true) :
    (l ++ t).takeWhile p = l ++ t.takeWhile p := by
  induction l with
  | nil => rfl
  | cons a as ih =>
    have hpa : p a = true := h a (List.mem_cons_self a as)
    have hrest : (as ++ t).takeWhile p = as ++ t.takeWhile p :=
      ih fun c hc => h c (List.mem_cons_of_mem a hc)
    calc ((a :: as) ++ t).takeWhile p
        = a :: (as ++ t).takeWhile p := by
          rw [List.cons_append, List.takeWhile_cons, hpa]
          rfl
      _ = (a :: as) ++ t.takeWhile p := by rw [hrest]; rfl

theorem tarGzSuffix_eq : tarGzSuffix = ['.', 't', 'a', 'r', '.', 'g', 'z'] := rfl

theorem dropWhile_cons_false {p : Char → Bool} (a : Char) (l : GoStr)
    (h : p a = false) : (a :: l).dropWhile p = a :: l := by
  simp [List.dropWhile, h]

/-- The base name of a location ending in ".tar.gz" is the reversed
slash-free tail of the prefix followed by the suffix. -/
theorem goBase_append_tarGz (t : GoStr) :
    goBase (t ++ tarGzSuffix) =
      (t.reverse.takeWhile (fun c => c ≠ '/')).reverse ++ tarGzSuffix := by
  have hne : t ++ tarGzSuffix ≠ [] := by
    simp [tarGzSuffix_eq]
  have hrev : (t ++ tarGzSuffix).reverse =
      ['z', 'g', '.', 'r', 'a', 't', '.'] ++ t.reverse := by
    rw [List.reverse_append, tarGzSuffix_eq]; rfl
  have hdrop : dropTrailingSep (t ++ tarGzSuffix) = t ++ tarGzSuffix := by
    unfold dropTrailingSep
    rw [hrev]
    simp only [List.cons_append, List.nil_append] at hrev ⊢
    rw [dropWhile_cons_false _ _ (by decide)]
    rw [← hrev, List.reverse_reverse]
  have htake : afterLastSep (t ++ tarGzSuffix) =
      (t.reverse.takeWhile (fun c => c ≠ '/')).reverse ++ tarGzSuffix := by
    unfold afterLastSep
    rw [hrev]
    rw [takeWhile_append_all (p := fun c => c ≠ '/')
      ['z', 'g', '.', 'r', 'a', 't', '.'] t.reverse (by decide)]
    rw [List.reverse_append]
    rfl
  simp only [goBase, hdrop, htake]
  rw [if_neg hne, if_neg (by simp [tarGzSuffix_eq])]

/- ------------------------------------------------------------ claim C5 -/

/-- C5: for every location ending in ".tar.gz", Version returns the base
name of the location with the ".tar.gz" suffix stripped, and appending
".tar.gz" to the result round-trips back to the original base name. -/
theorem version_strips_tar_gz_suffix (hl : Launchable) (t : GoStr)
    (h : hl.Location = t ++ tarGzSuffix) :
    ∃ v, hl.Version = some v ∧
      v = (goBase hl.Location).take
            ((goBase hl.Location).length - tarGzSuffix.length) ∧
      v ++ tarGzSuffix = goBase hl.Location := by
  have hbase : goBase hl.Location =
      (t.reverse.takeWhile (fun c => c ≠ '/')).reverse ++ tarGzSuffix := by
    rw [h]; exact goBase_append_tarGz t
  set w := (t.reverse.takeWhile (fun c => c ≠ '/')).reverse with hw
  have hlen : (goBase hl.Location).length = w.length + tarGzSuffix.length := by
    rw [hbase]; simp
  have htk : (goBase hl.Location).take
      ((goBase hl.Location).length - tarGzSuffix.length) = w := by
    rw [hbase]
    simp only [List.length_append, Nat.add_sub_cancel]
    exact List.take_left w tarGzSuffix
  refine ⟨w, ?_, htk.symm, by rw [hbase]⟩
  simp only [Launchable.Version]
  rw [if_neg (by omega), htk]

/-- C5 witness at location "/repo/myapp_1.2.3.tar.gz". -/
theorem version_strips_tar_gz_suffix_witness :
    ∃ v, (Launchable.Version
        { Location := s2l "/repo/myapp_1.2.3.tar.gz", Id := s2l "app",
          RunAs := s2l "u", ConfigDir := s2l "/etc/app", RootDir := s2l "/opt/app",
          Chpst := s2l "/usr/bin/chpst", Cgexec := s2l "/usr/bin/cgexec",
          CgroupName := s2l "cg" }) = some v ∧
      v = (goBase (s2l "/repo/myapp_1.2.3.tar.gz")).take
            ((goBase (s2l "/repo/myapp_1.2.3.tar.gz")).length - tarGzSuffix.length) ∧
      v ++ tarGzSuffix = goBase (s2l "/repo/myapp_1.2.3.tar.gz") :=
  version_strips_tar_gz_suffix
    { Location := s2l "/repo/myapp_1.2.3.tar.gz", Id := s2l "app",
      RunAs := s2l "u", ConfigDir := s2l "/etc/app", RootDir := s2l "/opt/app",
      Chpst := s2l "/usr/bin/chpst", Cgexec := s2l "/usr/bin/cgexec",
      CgroupName := s2l "cg" }
    (s2l "/repo/myapp_1.2.3") (by decide)

/- ----------------------------------------------------------- claim C10 -/

/-- C10: when the base name of Location is shorter than ".tar.gz" (seven
bytes), the Go slice expression in Version has a negative upper bound and
panics; the panic, modelled as none, propagates to InstallDir, Installed,
Install and Executables, all of which call Version. -/
theorem version_panics_on_short_base_name (hl : Launchable) (fs : FS)
    (o : InstallOracle) (dw : DiscoverWorld) (rr : GoStr)
    (h : (goBase hl.Location).length < tarGzSuffix.length) :
    hl.Version = none ∧ hl.InstallDir = none ∧ hl.Installed fs = none ∧
    hl.Install fs o = none ∧ hl.Executables fs dw rr = none := by
  have hv : hl.Version = none := by
    unfold Launchable.Version; simp [h]
  have hi : hl.InstallDir = none := by
    unfold Launchable.InstallDir; rw [hv]; rfl
  have hin : hl.Installed fs = none := by
    unfold Launchable.Installed; rw [hi]; rfl
  refine ⟨hv, hi, hin, ?_, ?_⟩
  · unfold Launchable.Install; rw [hin]; rfl
  · unfold Launchable.Executables; rw [hin]; rfl

/-- C10 witness: Location "x.gz" has a four-byte base name, so every
Version-dependent operation panics (is none). -/
theorem version_panics_on_short_base_name_witness :
    (Launchable.Version
      { Location := s2l "x.gz", Id := s2l "app", RunAs := s2l "u",
        ConfigDir := s2l "/etc/app", RootDir := s2l "/opt/app",
        Chpst := s2l "/usr/bin/chpst", Cgexec := s2l "/usr/bin/cgexec",
        CgroupName := s2l "cg" }) = none ∧
    (Launchable.InstallDir
      { Location := s2l "x.gz", Id := s2l "app", RunAs := s2l "u",
        ConfigDir := s2l "/etc/app", RootDir := s2l "/opt/app",
        Chpst := s2l "/usr/bin/chpst", Cgexec := s2l "/usr/bin/cgexec",
        CgroupName := s2l "cg" }) = none ∧
    (Launchable.Installed
      { Location := s2l "x.gz", Id := s2l "app", RunAs := s2l "u",
        ConfigDir := s2l "/etc/app", RootDir := s2l "/opt/app",
        Chpst := s2l "/usr/bin/chpst", Cgexec := s2l "/usr/bin/cgexec",
        CgroupName := s2l "cg" } []) = none ∧
    (Launchable.Install
      { Location := s2l "x.gz", Id := s2l "app", RunAs := s2l "u",
        ConfigDir := s2l "/etc/app", RootDir := s2l "/opt/app",
        Chpst := s2l "/usr/bin/chpst", Cgexec := s2l "/usr/bin/cgexec",
        CgroupName := s2l "cg" } []
      { tempDirRes := .ok (s2l "/tmp/t"), fetchRes := .ok (), openRes := .ok (),
        ex := { gzipRes := .ok (), idsRes := .ok (0, 0), mkdirRes := .ok (),
                chownRes := .ok (), headers := [], readErr := none } }) = none ∧
    (Launchable.Executables
      { Location := s2l "x.gz", Id := s2l "app", RunAs := s2l "u",
        ConfigDir := s2l "/etc/app", RootDir := s2l "/opt/app",
        Chpst := s2l "/usr/bin/chpst", Cgexec := s2l "/usr/bin/cgexec",
        CgroupName := s2l "cg" } []
      { readDir := fun _ => .ok [] } (s2l "/var/service")) = none :=
  version_panics_on_short_base_name _ _ _ _ _ (by decide)

/- ------------------------------------------------------------ claim C9 -/

/-- C9: when the install directory does not exist, Executables fails with the
explicit "not installed" error and produces no executables. -/
theorem executables_fails_when_not_installed (hl : Launchable) (fs : FS)
    (dw : DiscoverWorld) (rr : GoStr) (d : GoStr)
    (hd : hl.InstallDir = some d) (hni : fs.pathExists d = false) :
    hl.Executables fs dw rr =
      some ([], some (.otherErr (hl.Id ++ s2l " is not installed"))) := by
  unfold Launchable.Executables Launchable.Installed
  rw [hd]
  simp [hni]

/-- C9 witness: empty filesystem, concrete launchable. -/
theorem executables_fails_when_not_installed_witness :
    Launchable.Executables
      { Location := s2l "/repo/myapp_1.0.tar.gz", Id := s2l "app",
        RunAs := s2l "u", ConfigDir := s2l "/etc/app", RootDir := s2l "/opt/app",
        Chpst := s2l "/usr/bin/chpst", Cgexec := s2l "/usr/bin/cgexec",
        CgroupName := s2l "cg" } [] { readDir := fun _ => .ok [] }
      (s2l "/var/service") =
      some ([], some (.otherErr (s2l "app" ++ s2l " is not installed"))) :=
  executables_fails_when_not_installed _ _ _ _
    (s2l "/opt/app/installs/myapp_1.0") (by decide) (by decide)

/- --------------------------------------- filesystem monotonicity lemmas -/

theorem pathExists_set_self (fs : FS) (p : GoStr) (n : Node) :
    (fs.set p n).pathExists p = true := by
  simp [FS.set, FS.pathExists, FS.find]

theorem pathExists_set_mono (fs : FS) (p q : GoStr) (n : Node)
    (h : fs.pathExists q = true) : (fs.set p n).pathExists q = true := by
  simp only [FS.set, FS.pathExists, FS.find] at h ⊢
  by_cases hpq : p = q
  · simp [hpq]
  · simp [hpq, h]

/-- The filesystem produced by one extraction step is the input filesystem,
possibly extended by one binding. -/
theorem extractStep_fst_shape (dest : GoStr) (fs : FS) (hdr : TarHeader) :
    (extractStep dest fs hdr).1 = fs ∨
      ∃ p n, (extractStep dest fs hdr).1 = fs.set p n := by
  simp only [extractStep]
  repeat' split
  all_goals first
    | exact Or.inl rfl
    | exact Or.inr ⟨_, _, rfl⟩

theorem extractStep_mono (dest : GoStr) (fs : FS) (hdr : TarHeader) (q : GoStr)
    (h : fs.pathExists q = true) :
    (extractStep dest fs hdr).1.pathExists q = true := by
  rcases extractStep_fst_shape dest fs hdr with hs | ⟨p, n, hs⟩
  · rw [hs]; exact h
  · rw [hs]; exact pathExists_set_mono fs p q n h

/-- Extraction never removes paths: whatever exists before the entry loop
still exists after it, whether or not the loop succeeded. -/
theorem extractLoop_mono (dest q : GoStr) (hs : List TarHeader) :
    ∀ (fs fs1 : FS) (re : Option GoErr) (r : Except GoErr Unit),
      extractLoop dest fs hs re = (fs1, r) → fs.pathExists q = true →
      fs1.pathExists q = true := by
  induction hs with
  | nil =>
    intro fs fs1 re r h hq
    cases re <;> (simp only [extractLoop] at h; injection h with h1 _; rw [← h1]; exact hq)
  | cons hd tl ih =>
    intro fs fs1 re r h hq
    simp only [extractLoop] at h
    rcases hstep : extractStep dest fs hd with ⟨fsa, ra⟩
    rw [hstep] at h
    have hqa : fsa.pathExists q = true := by
      have hm := extractStep_mono dest fs hd q hq
      rw [hstep] at hm
      exact hm
    cases ra with
    | ok u => exact ih fsa fs1 re r h hqa
    | error e =>
      injection h with h1 _
      rw [← h1]
      exact hqa

/-- A successful extraction leaves the destination root existing (it is
created by MkdirChownAll before the entry loop). -/
theorem extractTarGz_ok_dest (hl : Launchable) (o : ExtractOracle) (fs fs1 : FS)
    (dest : GoStr) (u : Unit) (h : hl.extractTarGz o fs dest = (fs1, .ok u)) :
    fs1.pathExists dest = true := by
  unfold Launchable.extractTarGz at h
  cases hg : o.gzipRes with
  | error e =>
    rw [hg] at h; injection h with _ hb; exact Except.noConfusion hb
  | ok _ =>
  rw [hg] at h
  cases hi : o.idsRes with
  | error e =>
    rw [hi] at h; injection h with _ hb; exact Except.noConfusion hb
  | ok _ =>
  rw [hi] at h
  cases hm : o.mkdirRes with
  | error e =>
    rw [hm] at h; injection h with _ hb; exact Except.noConfusion hb
  | ok _ =>
  rw [hm] at h
  cases hc : o.chownRes with
  | error e =>
    rw [hc] at h; injection h with _ hb; exact Except.noConfusion hb
  | ok _ =>
    rw [hc] at h
    exact extractLoop_mono dest dest o.headers (fs.set dest .dirNode) fs1
      o.readErr (.ok u) h (pathExists_set_self fs dest .dirNode)

/-- Inversion for Install on a not-yet-installed launchable: success means
the fetch and open succeeded and the extraction succeeded, producing the
result filesystem. -/
theorem install_not_installed_inversion (hl : Launchable) (fs : FS)
    (o : InstallOracle) (d : GoStr) (fs1 : FS) (effs : List InstallEffect)
    (hd : hl.InstallDir = some d) (hni : fs.pathExists d = false)
    (h : hl.Install fs o = some (fs1, effs, none)) :
    hl.extractTarGz o.ex fs d = (fs1, .ok ()) := by
  obtain ⟨v, hV⟩ : ∃ v, hl.Version = some v := by
    unfold Launchable.InstallDir at hd
    cases hV : hl.Version with
    | none => rw [hV] at hd; exact absurd hd (by simp)
    | some v => exact ⟨v, rfl⟩
  simp [Launchable.Install, Launchable.Installed, hd, hV, hni] at h
  cases hT : o.tempDirRes with
  | error e => rw [hT] at h; simp at h
  | ok outDir =>
  rw [hT] at h
  cases hF : o.fetchRes with
  | error e => rw [hF] at h; simp at h
  | ok _ =>
  rw [hF] at h
  cases hO : o.openRes with
  | error e => rw [hO] at h; simp at h
  | ok _ =>
    rw [hO] at h
    rcases hx : hl.extractTarGz o.ex fs d with ⟨fsx, rx⟩
    rw [hx] at h
    cases rx with
    | error e => simp at h
    | ok u =>
      cases u
      simp at h
      obtain ⟨h1, _⟩ := h
      rw [h1]

/- ------------------------------------------------------------ claim C2 -/

/-- C2: when the install directory already exists, Install returns success
immediately with no effects and an unchanged filesystem; consequently a
successful Install (which guarantees the install directory exists
afterwards) makes a second Install with the same source location a no-op. -/
theorem install_idempotent (hl : Launchable) (fs : FS) (o o2 : InstallOracle)
    (d : GoStr) (hd : hl.InstallDir = some d) :
    (fs.pathExists d = true → hl.Install fs o = some (fs, [], none)) ∧
    (∀ fs1 effs, hl.Install fs o = some (fs1, effs, none) →
      hl.Install fs1 o2 = some (fs1, [], none)) := by
  have hbase : ∀ (fsx : FS) (ox : InstallOracle), fsx.pathExists d = true →
      hl.Install fsx ox = some (fsx, [], none) := by
    intro fsx ox hx
    simp [Launchable.Install, Launchable.Installed, hd, hx]
  refine ⟨hbase fs o, ?_⟩
  intro fs1 effs h
  by_cases hex : fs.pathExists d = true
  · have h0 := hbase fs o hex
    rw [h0] at h
    simp only [Option.some_inj] at h
    injection h with h1 h2
    rw [← h1]
    exact hbase fs o2 hex
  · have hni : fs.pathExists d = false := by simpa using hex
    have hx := install_not_installed_inversion hl fs o d fs1 effs hd hni h
    have hdest := extractTarGz_ok_dest hl o.ex fs fs1 d () hx
    exact hbase fs1 o2 hdest

/-- C2 witness: on the concrete installed fixture, Install is an immediate
no-op, twice. -/
theorem install_idempotent_witness :
    (wHl.Install wFs
      { tempDirRes := .ok (s2l "/tmp/t"), fetchRes := .ok (), openRes := .ok (),
        ex := { gzipRes := .ok (), idsRes := .ok (0, 0), mkdirRes := .ok (),
                chownRes := .ok (), headers := [], readErr := none } } =
      some (wFs, [], none)) ∧
    (wHl.Install wFs
      { tempDirRes := .ok (s2l "/tmp/t2"), fetchRes := .ok (), openRes := .ok (),
        ex := { gzipRes := .ok (), idsRes := .ok (0, 0), mkdirRes := .ok (),
                chownRes := .ok (), headers := [], readErr := none } } =
      some (wFs, [], none)) := by
  constructor
  · exact (install_idempotent wHl wFs
      { tempDirRes := .ok (s2l "/tmp/t"), fetchRes := .ok (), openRes := .ok (),
        ex := { gzipRes := .ok (), idsRes := .ok (0, 0), mkdirRes := .ok (),
                chownRes := .ok (), headers := [], readErr := none } }
      { tempDirRes := .ok (s2l "/tmp/t"), fetchRes := .ok (), openRes := .ok (),
        ex := { gzipRes := .ok (), idsRes := .ok (0, 0), mkdirRes := .ok (),
                chownRes := .ok (), headers := [], readErr := none } }
      wInstallDir (by decide)).1 (by decide)
  · exact (install_idempotent wHl wFs
      { tempDirRes := .ok (s2l "/tmp/t2"), fetchRes := .ok (), openRes := .ok (),
        ex := { gzipRes := .ok (), idsRes := .ok (0, 0), mkdirRes := .ok (),
                chownRes := .ok (), headers := [], readErr := none } }
      { tempDirRes := .ok (s2l "/tmp/t2"), fetchRes := .ok (), openRes := .ok (),
        ex := { gzipRes := .ok (), idsRes := .ok (0, 0), mkdirRes := .ok (),
                chownRes := .ok (), headers := [], readErr := none } }
      wInstallDir (by decide)).1 (by decide)

/- ------------------------------------------------------------ claim C7 -/

/-- An unrecognized type flag falls into the default arm of the entry switch
and is an error. -/
theorem extractStep_unrecognized_eq (dest : GoStr) (fs : FS) (hdr : TarHeader)
    (h : ¬ recognizedFlag hdr.typeflag) :
    extractStep dest fs hdr =
      (fs, .error (.otherErr (s2l "Unhandled type flag " ++ [hdr.typeflag]))) := by
  unfold recognizedFlag at h
  push_neg at h
  obtain ⟨h2, h1, h5, h0, hA⟩ := h
  simp [extractStep, h2, h1, h5, h0, hA]

/-- A successful entry loop processed only recognized entry types. -/
theorem extractLoop_ok_recognized (dest : GoStr) (hs : List TarHeader) :
    ∀ (fs fs1 : FS) (re : Option GoErr) (u : Unit),
      extractLoop dest fs hs re = (fs1, .ok u) →
      ∀ hdr ∈ hs, recognizedFlag hdr.typeflag := by
  induction hs with
  | nil => intro fs fs1 re u h hdr hm; simp at hm
  | cons hd tl ih =>
    intro fs fs1 re u h hdr hm
    simp only [extractLoop] at h
    rcases hstep : extractStep dest fs hd with ⟨fsa, ra⟩
    rw [hstep] at h
    cases ra with
    | error e =>
      injection h with _ hb
      exact Except.noConfusion hb
    | ok _ =>
      rcases List.mem_cons.mp hm with rfl | hm2
      · by_contra hbad
        rw [extractStep_unrecognized_eq dest fs hdr hbad] at hstep
        injection hstep with _ hb
        exact Except.noConfusion hb
      · exact ih fsa fs1 re u h hdr hm2

/-- A successful extractTarGz processed only recognized entry types. -/
theorem extractTarGz_ok_recognized (hl : Launchable) (o : ExtractOracle)
    (fs fs1 : FS) (dest : GoStr) (u : Unit)
    (h : hl.extractTarGz o fs dest = (fs1, .ok u)) :
    ∀ hdr ∈ o.headers, recognizedFlag hdr.typeflag := by
  unfold Launchable.extractTarGz at h
  cases hg : o.gzipRes with
  | error e =>
    rw [hg] at h; injection h with _ hb; exact Except.noConfusion hb
  | ok _ =>
  rw [hg] at h
  cases hi : o.idsRes with
  | error e =>
    rw [hi] at h; injection h with _ hb; exact Except.noConfusion hb
  | ok _ =>
  rw [hi] at h
  cases hmk : o.mkdirRes with
  | error e =>
    rw [hmk] at h; injection h with _ hb; exact Except.noConfusion hb
  | ok _ =>
  rw [hmk] at h
  cases hc : o.chownRes with
  | error e =>
    rw [hc] at h; injection h with _ hb; exact Except.noConfusion hb
  | ok _ =>
    rw [hc] at h
    exact extractLoop_ok_recognized dest o.headers (fs.set dest .dirNode) fs1
      o.readErr u h

/-- C7: a tar entry whose type flag is not regular, directory, symlink or
hardlink makes the extraction step fail, and a successful Install of a
not-yet-installed launchable implies every archive entry had a recognized
type: unrecognized entry types are never silently skipped. -/
theorem unrecognized_tar_entry_aborts (dest : GoStr) (fs : FS) (hdr : TarHeader)
    (hl : Launchable) (o : InstallOracle) (d : GoStr)
    (hbad : ¬ recognizedFlag hdr.typeflag)
    (hd : hl.InstallDir = some d) (hni : fs.pathExists d = false) :
    extractStep dest fs hdr =
      (fs, .error (.otherErr (s2l "Unhandled type flag " ++ [hdr.typeflag]))) ∧
    (∀ fs1 effs, hl.Install fs o = some (fs1, effs, none) →
      ∀ h2 ∈ o.ex.headers, recognizedFlag h2.typeflag) := by
  refine ⟨extractStep_unrecognized_eq dest fs hdr hbad, ?_⟩
  intro fs1 effs h h2 hm
  have hx := install_not_installed_inversion hl fs o d fs1 effs hd hni h
  exact extractTarGz_ok_recognized hl o.ex fs fs1 d () hx h2 hm

/-- C7 witness at a FIFO entry (type flag six) on the concrete fixture. -/
theorem unrecognized_tar_entry_aborts_witness :
    extractStep (s2l "/opt/app/installs/myapp_1.0") []
      { typeflag := '6', name := s2l "fifo", linkname := [] } =
      ([], .error (.otherErr (s2l "Unhandled type flag " ++ ['6']))) ∧
    (∀ fs1 effs, Launchable.Install wHl []
      { tempDirRes := .ok (s2l "/tmp/t"), fetchRes := .ok (), openRes := .ok (),
        ex := { gzipRes := .ok (), idsRes := .ok (0, 0), mkdirRes := .ok (),
                chownRes := .ok (),
                headers := [{ typeflag := '6', name := s2l "fifo", linkname := [] }],
                readErr := none } } = some (fs1, effs, none) →
      ∀ h2 ∈ [({ typeflag := '6', name := s2l "fifo", linkname := [] } : TarHeader)],
        recognizedFlag h2.typeflag) :=
  unrecognized_tar_entry_aborts (s2l "/opt/app/installs/myapp_1.0") []
    { typeflag := '6', name := s2l "fifo", linkname := [] } wHl
    { tempDirRes := .ok (s2l "/tmp/t"), fetchRes := .ok (), openRes := .ok (),
      ex := { gzipRes := .ok (), idsRes := .ok (0, 0), mkdirRes := .ok (),
              chownRes := .ok (),
              headers := [{ typeflag := '6', name := s2l "fifo", linkname := [] }],
              readErr := none } }
    wInstallDir (by decide) (by decide) (by decide)

/- ------------------------------------------------------------ claim C6 -/

/-- C6: a hardlink tar entry is materialized as a symlink (never a hardlink
node) at the entry destination path, whose target is the link name
recomputed relative to the directory of the entry name; on the spec example,
entry a/c/link with link name a/b/target yields the relative target
../b/target, which resolves from the symlink directory back to
dest/a/b/target. -/
theorem hardlink_materialized_as_symlink (dest : GoStr) (fs : FS)
    (hdr : TarHeader) (t : GoStr) (hFlag : hdr.typeflag = tarTypeLink)
    (hRel : goRel (goDir hdr.name) hdr.linkname = .ok t)
    (hFresh : fs.pathExists (goJoin [dest, hdr.name]) = false) :
    extractStep dest fs hdr =
      (fs.set (goJoin [dest, hdr.name]) (Node.symlinkNode t), .ok ()) ∧
    (∀ u, Node.symlinkNode t ≠ Node.hardlinkNode u) ∧
    goRel (goDir (s2l "a/c/link")) (s2l "a/b/target") = .ok (s2l "../b/target") ∧
    goJoin [goDir (goJoin [s2l "/opt/app/installs/myapp_1.0", s2l "a/c/link"]),
        s2l "../b/target"] =
      goJoin [s2l "/opt/app/installs/myapp_1.0", s2l "a/b/target"] := by
  refine ⟨?_, (by intro u hc; cases hc), by decide, by decide⟩
  have h12 : ¬ (tarTypeLink = tarTypeSymlink) := by decide
  simp [extractStep, hFlag, h12, hRel, hFresh]

/-- C6 witness on the spec example entry. -/
theorem hardlink_materialized_as_symlink_witness :
    extractStep (s2l "/opt/app/installs/myapp_1.0") []
      { typeflag := '1', name := s2l "a/c/link", linkname := s2l "a/b/target" } =
      (FS.set [] (goJoin [s2l "/opt/app/installs/myapp_1.0", s2l "a/c/link"])
        (Node.symlinkNode (s2l "../b/target")), .ok ()) ∧
    (∀ u, Node.symlinkNode (s2l "../b/target") ≠ Node.hardlinkNode u) ∧
    goRel (goDir (s2l "a/c/link")) (s2l "a/b/target") = .ok (s2l "../b/target") ∧
    goJoin [goDir (goJoin [s2l "/opt/app/installs/myapp_1.0", s2l "a/c/link"]),
        s2l "../b/target"] =
      goJoin [s2l "/opt/app/installs/myapp_1.0", s2l "a/b/target"] :=
  hardlink_materialized_as_symlink (s2l "/opt/app/installs/myapp_1.0") []
    { typeflag := '1', name := s2l "a/c/link", linkname := s2l "a/b/target" }
    (s2l "../b/target") (by decide) (by decide) (by decide)

/- ------------------------------------------------------------ claim C3 -/

/-- C3: Enable, Disable and PostActivate return success with empty captured
output when the hook script under installDir/bin does not exist, and return
the captured combined output together with the failure when the script
exists but its execution fails with an error that is not a not-exist
condition (for example a non-zero exit); only the not-exist condition is
swallowed. -/
theorem hooks_optional_absent_swallowed_failure_surfaced (hl : Launchable)
    (w : HookWorld) (d : GoStr) (hd : hl.InstallDir = some d) :
    ((w.stat (goJoin [d, s2l "bin", s2l "enable"]) = .statErr .notExistErr →
        hl.Enable w = some ([], none)) ∧
      (∀ out e, w.stat (goJoin [d, s2l "bin", s2l "enable"]) = .found →
        w.run (goJoin [d, s2l "bin", s2l "enable"]) = (out, some e) →
        e.isNotExist = false → hl.Enable w = some (out, some e))) ∧
    ((w.stat (goJoin [d, s2l "bin", s2l "disable"]) = .statErr .notExistErr →
        hl.Disable w = some ([], none)) ∧
      (∀ out e, w.stat (goJoin [d, s2l "bin", s2l "disable"]) = .found →
        w.run (goJoin [d, s2l "bin", s2l "disable"]) = (out, some e) →
        e.isNotExist = false → hl.Disable w = some (out, some e))) ∧
    ((w.stat (goJoin [d, s2l "bin", s2l "post-activate"]) = .statErr .notExistErr →
        hl.PostActivate w = some ([], none)) ∧
      (∀ out e, w.stat (goJoin [d, s2l "bin", s2l "post-activate"]) = .found →
        w.run (goJoin [d, s2l "bin", s2l "post-activate"]) = (out, some e) →
        e.isNotExist = false → hl.PostActivate w = some (out, some e))) := by
  refine ⟨⟨?_, ?_⟩, ⟨?_, ?_⟩, ⟨?_, ?_⟩⟩
  · intro hs
    simp [Launchable.Enable, Launchable.invokeBinScript, hd, hs, GoErr.isNotExist]
  · intro out e hs hr hne
    simp [Launchable.Enable, Launchable.invokeBinScript, hd, hs, hr, hne]
  · intro hs
    simp [Launchable.Disable, Launchable.invokeBinScript, hd, hs, GoErr.isNotExist]
  · intro out e hs hr hne
    simp [Launchable.Disable, Launchable.invokeBinScript, hd, hs, hr, hne]
  · intro hs
    simp [Launchable.PostActivate, Launchable.invokeBinScript, hd, hs, GoErr.isNotExist]
  · intro out e hs hr hne
    simp [Launchable.PostActivate, Launchable.invokeBinScript, hd, hs, hr, hne]

/-- C3 witness: a world where every hook script is absent, evaluated on the
Enable branch, and a world where the enable script fails with captured
output, evaluated on the surfaced-failure branch. -/
theorem hooks_optional_witness :
    (Launchable.Enable
      { Location := s2l "/repo/myapp_1.0.tar.gz", Id := s2l "app",
        RunAs := s2l "u", ConfigDir := s2l "/etc/app", RootDir := s2l "/opt/app",
        Chpst := s2l "/usr/bin/chpst", Cgexec := s2l "/usr/bin/cgexec",
        CgroupName := s2l "cg" }
      { stat := fun _ => .statErr .notExistErr,
        run := fun _ => ([], none) } = some ([], none)) ∧
    (Launchable.Enable
      { Location := s2l "/repo/myapp_1.0.tar.gz", Id := s2l "app",
        RunAs := s2l "u", ConfigDir := s2l "/etc/app", RootDir := s2l "/opt/app",
        Chpst := s2l "/usr/bin/chpst", Cgexec := s2l "/usr/bin/cgexec",
        CgroupName := s2l "cg" }
      { stat := fun _ => .found,
        run := fun _ => (s2l "boom", some (.otherErr (s2l "exit status 1"))) } =
      some (s2l "boom", some (.otherErr (s2l "exit status 1")))) := by
  constructor
  · exact (hooks_optional_absent_swallowed_failure_surfaced _
      { stat := fun _ => .statErr .notExistErr, run := fun _ => ([], none) }
      (s2l "/opt/app/installs/myapp_1.0") (by decide)).1.1 rfl
  · exact (hooks_optional_absent_swallowed_failure_surfaced _
      { stat := fun _ => .found,
        run := fun _ => (s2l "boom", some (.otherErr (s2l "exit status 1"))) }
      (s2l "/opt/app/installs/myapp_1.0") (by decide)).1.2
      (s2l "boom") (.otherErr (s2l "exit status 1")) rfl rfl rfl

/- ------------------------------------------------------------ claim C4 -/

/-- C4: when the cgroup configuration write fails, Launch aborts with a
wrapped error and its trace is exactly the cgroup step (so no restart
request is issued and the enable hook is not invoked); every restart request
in a Launch trace implies the cgroup write succeeded, and an enable-hook
step implies additionally that Start returned success. -/
theorem launch_cgroup_failure_short_circuits (hl : Launchable) (fs : FS)
    (dw : DiscoverWorld) (rr : GoStr) (cg : Except GoErr Unit)
    (restart : Executable → SvResult) (hw : HookWorld)
    (tr : List LaunchEvent) (res : Option GoErr)
    (h : hl.Launch fs dw rr cg restart hw = some (tr, res)) :
    (∀ e, cg = .error e →
      tr = [LaunchEvent.cgroupWrite] ∧
      res = some (.otherErr (s2l "Could not configure cgroup " ++ hl.CgroupName ++
        s2l ": " ++ e.msg)) ∧
      (∀ ex, LaunchEvent.restartReq ex ∉ tr) ∧ LaunchEvent.enableHook ∉ tr) ∧
    ((∃ ex, LaunchEvent.restartReq ex ∈ tr) → cg = .ok ()) ∧
    (LaunchEvent.enableHook ∈ tr → cg = .ok () ∧
      ∃ issued, hl.Start fs dw rr restart = some (issued, none)) := by
  cases cg with
  | error e =>
    simp only [Launchable.Launch, Option.pure_def, Option.some_inj] at h
    obtain ⟨htr, hres⟩ := Prod.mk.injEq _ _ _ _ ▸ h
    subst htr
    refine ⟨?_, ?_, ?_⟩
    · intro e2 he2
      obtain rfl : e = e2 := by injection he2
      exact ⟨rfl, hres.symm, by simp, by simp⟩
    · rintro ⟨ex, hmem⟩
      simp at hmem
    · intro hmem
      simp at hmem
  | ok u =>
    cases u
    refine ⟨fun e he => Except.noConfusion he, fun _ => rfl, ?_⟩
    · intro hmem
      refine ⟨rfl, ?_⟩
      cases hS : hl.Start fs dw rr restart with
      | none => simp [Launchable.Launch, hS] at h
      | some r =>
        obtain ⟨issued, se⟩ := r
        cases se with
        | some e0 =>
          simp only [Launchable.Launch, hS] at h
          simp at h
          obtain ⟨htr, _⟩ := h
          subst htr
          simp [List.mem_cons, List.mem_map] at hmem
        | none =>
          exact ⟨issued, rfl⟩

/-- C4 witness: a failing cgroup write on the concrete fixture. -/
theorem launch_cgroup_failure_short_circuits_witness :
    [LaunchEvent.cgroupWrite] = [LaunchEvent.cgroupWrite] ∧
    (some (GoErr.otherErr (s2l "Could not configure cgroup " ++ wHl.CgroupName ++
        s2l ": " ++ GoErr.msg (.otherErr (s2l "no cgroup")))) : Option GoErr) =
      some (.otherErr (s2l "Could not configure cgroup " ++ wHl.CgroupName ++
        s2l ": " ++ GoErr.msg (.otherErr (s2l "no cgroup")))) ∧
    (∀ ex, LaunchEvent.restartReq ex ∉ [LaunchEvent.cgroupWrite]) ∧
    LaunchEvent.enableHook ∉ [LaunchEvent.cgroupWrite] :=
  (launch_cgroup_failure_short_circuits wHl wFs wDw wRR
    (.error (.otherErr (s2l "no cgroup"))) (fun _ => SvResult.ok) wHw
    [LaunchEvent.cgroupWrite]
    (some (.otherErr (s2l "Could not configure cgroup " ++ wHl.CgroupName ++
      s2l ": " ++ GoErr.msg (.otherErr (s2l "no cgroup")))))
    (by decide)).1 (.otherErr (s2l "no cgroup")) rfl

/- ------------------------------------------------------------ claim C1 -/

/-- C1 (refuted, code bug): the restart loop of Start compares the restart
error against runit.SuperviseOkMissing instead of nil, so a successful (nil)
restart also takes the return branch.  On the concrete fixture two
executables (web and worker) are discovered and every sv.Restart call
succeeds, yet Start issues a restart request only to web and returns
success, contradicting both the claim and the doc comment of Start ("All
services will attempt to be started"). -/
theorem start_skips_remaining_services_after_successful_restart :
    wHl.Executables wFs wDw wRR = some ([wExWeb, wExWorker], none) ∧
    wHl.Start wFs wDw wRR (fun _ => SvResult.ok) = some ([wExWeb], none) := by
  constructor
  · decide
  · decide

/- ------------------------------------------------------------ claim C8 -/

/-- C8: in every flipSymlink run whose temp directory and temp link differ
from the final pointer path, the final path is touched only by the rename of
the prepared temp symlink, at most one operation of the trace touches it, the
temp directory is removed whenever it was created (success or failure), a
failure of any step before the rename leaves the final path untouched, and
MakeCurrent and MakeLast are exactly flipSymlink on the current and last
pointer paths. -/
theorem flip_symlink_atomic_final_path (hl : Launchable) (w : FlipWorld)
    (p : GoStr) (tr : List FsEvent) (res : Option GoErr)
    (hp : ∀ d, w.tempDirRes = .ok d → d ≠ p ∧ goJoin [d, hl.Id] ≠ p)
    (h : hl.flipSymlink w p = some (tr, res)) :
    (∀ ev ∈ tr, touches p ev = true → ∃ s, ev = FsEvent.renameOp s p) ∧
    (tr.filter (touches p)).length ≤ 1 ∧
    (∀ d, w.tempDirRes = .ok d → FsEvent.removeAllOp d ∈ tr) ∧
    ((isOkE w.symlinkRes = false ∨ isOkE w.idsRes = false ∨
        isOkE w.lchownRes = false) → tr.filter (touches p) = []) ∧
    hl.MakeCurrent w = hl.flipSymlink w hl.CurrentDir ∧
    hl.MakeLast w = hl.flipSymlink w hl.LastDir := by
  refine ?_
  cases hI : hl.InstallDir with
  | none => simp [Launchable.flipSymlink, hI] at h
  | some instDir =>
  cases hT : w.tempDirRes with
  | error e =>
    simp only [Launchable.flipSymlink, hI, hT] at h
    simp at h
    obtain ⟨htr, _⟩ := h
    subst htr
    refine ⟨by simp, by simp, ?_, by simp, rfl, rfl⟩
    intro d hd
    exact Except.noConfusion hd
  | ok dir =>
    obtain ⟨hd1, hd2⟩ := hp dir hT
    cases hS : w.symlinkRes with
    | error e =>
      simp only [Launchable.flipSymlink, hI, hT, hS] at h
      simp at h
      obtain ⟨htr, _⟩ := h
      subst htr
      refine ⟨?_, ?_, ?_, ?_, rfl, rfl⟩
      · intro ev hev htv
        simp only [List.mem_cons, List.mem_singleton] at hev
        rcases hev with rfl | rfl | rfl | hev
        · simp [touches, hd1] at htv
        · simp [touches, hd2] at htv
        · simp [touches, hd1] at htv
        · simp at hev
      · simp [touches, hd1, hd2]
      · intro d hd
        obtain rfl : dir = d := by injection hd
        simp
      · intro _
        simp [touches, hd1, hd2]
    | ok _ =>
    cases hU : w.idsRes with
    | error e =>
      simp only [Launchable.flipSymlink, hI, hT, hS, hU] at h
      simp at h
      obtain ⟨htr, _⟩ := h
      subst htr
      refine ⟨?_, ?_, ?_, ?_, rfl, rfl⟩
      · intro ev hev htv
        simp only [List.mem_cons, List.mem_singleton] at hev
        rcases hev with rfl | rfl | rfl | hev
        · simp [touches, hd1] at htv
        · simp [touches, hd2] at htv
        · simp [touches, hd1] at htv
        · simp at hev
      · simp [touches, hd1, hd2]
      · intro d hd
        obtain rfl : dir = d := by injection hd
        simp
      · intro _
        simp [touches, hd1, hd2]
    | ok _ =>
    cases hL : w.lchownRes with
    | error e =>
      simp only [Launchable.flipSymlink, hI, hT, hS, hU, hL] at h
      simp at h
      obtain ⟨htr, _⟩ := h
      subst htr
      refine ⟨?_, ?_, ?_, ?_, rfl, rfl⟩
      · intro ev hev htv
        simp only [List.mem_cons, List.mem_singleton] at hev
        rcases hev with rfl | rfl | rfl | rfl | hev
        · simp [touches, hd1] at htv
        · simp [touches, hd2] at htv
        · simp [touches, hd2] at htv
        · simp [touches, hd1] at htv
        · simp at hev
      · simp [touches, hd1, hd2]
      · intro d hd
        obtain rfl : dir = d := by injection hd
        simp
      · intro _
        simp [touches, hd1, hd2]
    | ok _ =>
      simp only [Launchable.flipSymlink, hI, hT, hS, hU, hL] at h
      simp at h
      obtain ⟨htr, _⟩ := h
      subst htr
      refine ⟨?_, ?_, ?_, ?_, rfl, rfl⟩
      · intro ev hev htv
        simp only [List.mem_cons, List.mem_singleton] at hev
        rcases hev with rfl | rfl | rfl | rfl | rfl | hev
        · simp [touches, hd1] at htv
        · simp [touches, hd2] at htv
        · simp [touches, hd2] at htv
        · exact ⟨goJoin [dir, hl.Id], rfl⟩
        · simp [touches, hd1] at htv
        · simp at hev
      · simp [touches, hd1, hd2]
      · intro d hd
        obtain rfl : dir = d := by injection hd
        simp
      · rintro (hbad | hbad | hbad) <;> rw [hS] at * <;> rw [hU] at * <;>
          rw [hL] at * <;> simp [isOkE] at hbad

/-- C8 witness: a fully successful MakeCurrent-style flip on the concrete
fixture. -/
theorem flip_symlink_atomic_final_path_witness :
    (∀ ev ∈ wFlipTrace, touches wHl.CurrentDir ev = true →
      ∃ s, ev = FsEvent.renameOp s wHl.CurrentDir) ∧
    (wFlipTrace.filter (touches wHl.CurrentDir)).length ≤ 1 ∧
    (∀ d, wFlip.tempDirRes = .ok d → FsEvent.removeAllOp d ∈ wFlipTrace) ∧
    ((isOkE wFlip.symlinkRes = false ∨ isOkE wFlip.idsRes = false ∨
        isOkE wFlip.lchownRes = false) →
      wFlipTrace.filter (touches wHl.CurrentDir) = []) ∧
    wHl.MakeCurrent wFlip = wHl.flipSymlink wFlip wHl.CurrentDir ∧
    wHl.MakeLast wFlip = wHl.flipSymlink wFlip wHl.LastDir :=
  flip_symlink_atomic_final_path wHl wFlip wHl.CurrentDir wFlipTrace none
    (fun d hd => by
      injection hd with he
      subst he
      exact ⟨by decide, by decide⟩)
    (by decide)

end P2Hoist

